import Mathlib

/-!
Verification of the trade-analytics core of the TradingJournal application.

The embedding below translates the pure computational kernel of the
repository into Lean:

* `calculateTradeStats`, `getPortfolioSummary` — summary statistics over a
  trade list (`src/utils/historicalUtils.ts`, `tradingStorageService.ts`);
* `calculateMaxDrawdown` — running-peak drawdown (`historicalUtils.ts`);
* `generateHistoricalAnalytics` — the report orchestrator (`historicalUtils.ts`);
* `updateMonthlyTargetProgress` — monthly-target recomputation
  (`src/services/monthlyTargetsService.ts`), made pure by passing the
  stored target and the current clock value explicitly;
* `calculatePositionSize` — the position-size calculator component;
* `calculateDailyStats` — the daily risk monitor's streak computation
  (`src/components/SimpleTradingJournal.tsx`);
* `calculatePortfolioMetrics` — the portfolio metrics in
  `src/utils/tradingUtils.ts` (a second trade model, `UtilTrade`).

JavaScript numbers are modelled as rationals (`ℚ`); `parseFloat` results
that may be `NaN` (missing/unparseable input) are modelled as `Option ℚ`
with `none` for `NaN`.  Calendar dates are triples `(year, month, day)`;
for the valid dates produced by the application, comparison of
`new Date(s).getTime()` values coincides with lexicographic comparison of
the triples, which is how `Date.le` is defined.  `Array.prototype.sort`
(stable per ES2019) is modelled by `List.insertionSort`, which is stable
and produces a sorted permutation, hence is extensionally the same
function on every comparator appearing here.
-/

/-- A calendar date `(year, month, day)`.  The source stores dates as
`YYYY-MM-DD` strings and compares them through `new Date(...)`; for valid
dates that order is the lexicographic order on the triple. -/
structure Date where
  year : Int
  month : Int
  day : Int
deriving DecidableEq

/-- Lexicographic order on dates: the order of `new Date(a).getTime() <= new
Date(b).getTime()` for valid calendar dates. -/
def Date.le (a b : Date) : Prop :=
  a.year < b.year ∨
    (a.year = b.year ∧ (a.month < b.month ∨ (a.month = b.month ∧ a.day ≤ b.day)))

/-- Strict lexicographic order on dates. -/
def Date.lt (a b : Date) : Prop :=
  a.year < b.year ∨
    (a.year = b.year ∧ (a.month < b.month ∨ (a.month = b.month ∧ a.day < b.day)))

instance : DecidableRel Date.le := by
  unfold Date.le; exact fun a b => inferInstanceAs (Decidable (_ ∨ _))

instance : DecidableRel Date.lt := by
  unfold Date.lt; exact fun a b => inferInstanceAs (Decidable (_ ∨ _))

/-- A logged trade, restricted to the fields the analytics core reads:
the trade date, the net profit/loss and the fees. -/
structure Trade where
  date : Date
  netPL : ℚ
  fees : ℚ
deriving DecidableEq

/-- `Math.max` over a nonempty list (the sources always guard the empty
case separately before spreading a list into `Math.max`). -/
def listMax : List ℚ → ℚ
  | [] => 0
  | x :: xs => xs.foldl max x

/-- `Math.min` over a nonempty list. -/
def listMin : List ℚ → ℚ
  | [] => 0
  | x :: xs => xs.foldl min x

/-- The `StatsSummary` record produced by `calculateTradeStats`. -/
structure TradeStats where
  totalTrades : ℕ
  totalPnL : ℚ
  totalFees : ℚ
  winningTrades : ℕ
  losingTrades : ℕ
  winRate : ℚ
  bestTrade : ℚ
  worstTrade : ℚ
  averagePnL : ℚ
deriving DecidableEq

/-- `calculateTradeStats` from `src/utils/historicalUtils.ts`. -/
def calculateTradeStats (trades : List Trade) : TradeStats :=
  let totalTrades := trades.length
  let totalPnL := (trades.map (fun t => t.netPL)).sum
  let totalFees := (trades.map (fun t => t.fees)).sum
  let winningTrades := (trades.filter (fun t => 0 < t.netPL)).length
  let losingTrades := (trades.filter (fun t => t.netPL < 0)).length
  let winRate : ℚ := if 0 < totalTrades then ((winningTrades : ℚ) / (totalTrades : ℚ)) * 100 else 0
  let bestTrade := if trades.length = 0 then 0 else listMax (trades.map (fun t => t.netPL))
  let worstTrade := if trades.length = 0 then 0 else listMin (trades.map (fun t => t.netPL))
  let averagePnL := if 0 < totalTrades then totalPnL / (totalTrades : ℚ) else 0
  { totalTrades := totalTrades
    totalPnL := totalPnL
    totalFees := totalFees
    winningTrades := winningTrades
    losingTrades := losingTrades
    winRate := winRate
    bestTrade := bestTrade
    worstTrade := worstTrade
    averagePnL := averagePnL }

/-- The portfolio summary record of `getPortfolioSummary`
(`src/services/tradingStorageService.ts`). -/
structure PortfolioSummary where
  totalTrades : ℕ
  totalNetPL : ℚ
  totalFees : ℚ
  winningTrades : ℕ
  losingTrades : ℕ
  winRate : ℚ
  bestTrade : ℚ
  worstTrade : ℚ
  averageNetPL : ℚ
deriving DecidableEq

/-- `getPortfolioSummary` from `src/services/tradingStorageService.ts`,
with the repository load made explicit: the function receives the user's
materialized trade list. -/
def getPortfolioSummary (trades : List Trade) : PortfolioSummary :=
  let totalTrades := trades.length
  let totalNetPL := (trades.map (fun t => t.netPL)).sum
  let totalFees := (trades.map (fun t => t.fees)).sum
  let winningTrades := (trades.filter (fun t => 0 < t.netPL)).length
  let losingTrades := (trades.filter (fun t => t.netPL < 0)).length
  let winRate : ℚ := if 0 < totalTrades then ((winningTrades : ℚ) / (totalTrades : ℚ)) * 100 else 0
  let bestTrade := if trades.length = 0 then 0 else listMax (trades.map (fun t => t.netPL))
  let worstTrade := if trades.length = 0 then 0 else listMin (trades.map (fun t => t.netPL))
  let averageNetPL := if 0 < totalTrades then totalNetPL / (totalTrades : ℚ) else 0
  { totalTrades := totalTrades
    totalNetPL := totalNetPL
    totalFees := totalFees
    winningTrades := winningTrades
    losingTrades := losingTrades
    winRate := winRate
    bestTrade := bestTrade
    worstTrade := worstTrade
    averageNetPL := averageNetPL }

/-- Decimal rounding: `parseFloat(x.toFixed(n))`, modelled exactly over `ℚ`
as rounding `x` to `n` decimal places. -/
def roundTo (n : ℕ) (x : ℚ) : ℚ := (round (x * 10 ^ n) : ℚ) / 10 ^ n

/-- JavaScript truthiness of a `parseFloat` result: `NaN` (modelled `none`)
and `0` are falsy, every other number is truthy. -/
def jsTruthy : Option ℚ → Bool
  | none => false
  | some x => decide (x ≠ 0)

/-- The `CalculationResults` record of the position-size calculator. -/
structure CalculationResults where
  lotSize : ℚ
  riskAmount : ℚ
  potentialProfit : Option ℚ
  pipValue : ℚ
deriving DecidableEq

/-- `calculatePositionSize` from the `PositionSizeCalculator` component.
Inputs are the `parseFloat` results of the form fields (`none` for an
empty/unparseable field, whose `parseFloat` is `NaN`); `selectedPairPipValue`
is `pairOptions.find(...)`, `none` when no pair matches.  The guard
`if (!balance || !riskPercent || !stopLoss || !selectedPair) return;` stops
with no result exactly when one of the three numeric inputs is falsy or the
pair lookup failed.  `takeProfit` participates via `if (takeProfit)`
(skipped when `null` or `0`), and the final
`potentialProfit ? ... : null` maps a computed `0` back to `null`. -/
def calculatePositionSize (accountBalance riskPercentage stopLossPips : Option ℚ)
    (selectedPairPipValue : Option ℚ) (takeProfitPips : Option ℚ) :
    Option CalculationResults :=
  match selectedPairPipValue with
  | none => none
  | some pipValue =>
    if jsTruthy accountBalance && jsTruthy riskPercentage && jsTruthy stopLossPips then
      let balance := accountBalance.getD 0
      let riskPercent := riskPercentage.getD 0
      let stopLoss := stopLossPips.getD 0
      let riskAmount := balance * riskPercent / 100
      let lotSize := riskAmount / (stopLoss * pipValue)
      let potentialProfit : Option ℚ :=
        match takeProfitPips with
        | some takeProfit =>
            if takeProfit ≠ 0 then some (takeProfit * pipValue * lotSize) else none
        | none => none
      some { lotSize := roundTo 4 lotSize
             riskAmount := roundTo 2 riskAmount
             potentialProfit :=
               match potentialProfit with
               | some p => if p ≠ 0 then some (roundTo 2 p) else none
               | none => none
             pipValue := pipValue }
    else none

/-- `filterTradesByDateRange` from `historicalUtils.ts`: keep the trades
whose date lies in the inclusive range. -/
def filterTradesByDateRange (trades : List Trade) (startDate endDate : Date) : List Trade :=
  trades.filter (fun t => decide (Date.le startDate t.date) && decide (Date.le t.date endDate))

/-- JavaScript leap-year rule, as produced by `new Date(year, 2, 0)`. -/
def isLeapYear (year : Int) : Bool :=
  year % 4 == 0 && (!(year % 100 == 0) || year % 400 == 0)

/-- `new Date(year, month, 0).getDate()`: the number of days of calendar
month `month` (1–12) of `year`. -/
def daysInMonth (year month : Int) : Int :=
  if month = 2 then (if isLeapYear year then 29 else 28)
  else if month = 4 ∨ month = 6 ∨ month = 9 ∨ month = 11 then 30
  else 31

/-- The persistent `MonthlyTarget` record, restricted to the fields the
tracker reads and writes.  `completedAt`/`updatedAt` timestamps are opaque
clock values, modelled as integers. -/
structure MonthlyTarget where
  pnlTarget : ℚ
  tradesTarget : ℚ
  winRateTarget : ℚ
  currentPnL : ℚ
  currentTrades : ℚ
  currentWinRate : ℚ
  isCompleted : Bool
  completedAt : Option Int
  updatedAt : Int
deriving DecidableEq

/-- `updateMonthlyTargetProgress` from `monthlyTargetsService.ts`, made
pure: the stored target for `(year, month)` and the clock value `now` are
passed in, and the function returns the record as stored back by
`updateMonthlyTarget` (which merges the update object into the document and
stamps `updatedAt`).  The month window is
`[new Date(year, month-1, 1), new Date(year, month, 0)]`, i.e. the first
through last day of the month; `completedAt` is written only inside
`if (isCompleted && !target.isCompleted)`. -/
def updateMonthlyTargetProgress (target : MonthlyTarget) (year month : Int)
    (trades : List Trade) (now : Int) : MonthlyTarget :=
  let startDate : Date := ⟨year, month, 1⟩
  let endDate : Date := ⟨year, month, daysInMonth year month⟩
  let monthTrades := filterTradesByDateRange trades startDate endDate
  let stats := calculateTradeStats monthTrades
  let isCompleted : Bool :=
    decide (target.pnlTarget ≤ stats.totalPnL) &&
    decide (target.tradesTarget ≤ (stats.totalTrades : ℚ)) &&
    decide (target.winRateTarget ≤ stats.winRate)
  { target with
    currentPnL := stats.totalPnL
    currentTrades := (stats.totalTrades : ℚ)
    currentWinRate := stats.winRate
    isCompleted := isCompleted
    completedAt := if isCompleted && !target.isCompleted then some now else target.completedAt
    updatedAt := now }

/-- Ascending stable sort by date:
`[...trades].sort((a, b) => new Date(a.date).getTime() - new Date(b.date).getTime())`. -/
def sortTradesByDateAsc (trades : List Trade) : List Trade :=
  trades.insertionSort (fun a b => Date.le a.date b.date)

/-- One iteration of the `calculateMaxDrawdown` loop on the state
`(peak, runningTotal, maxDrawdown)`. -/
def mddStep (st : ℚ × ℚ × ℚ) (t : Trade) : ℚ × ℚ × ℚ :=
  let runningTotal := st.2.1 + t.netPL
  let peak := if st.1 < runningTotal then runningTotal else st.1
  let drawdown := peak - runningTotal
  let maxDrawdown := if st.2.2 < drawdown then drawdown else st.2.2
  (peak, runningTotal, maxDrawdown)

/-- `calculateMaxDrawdown` from `historicalUtils.ts`: sort a copy of the
input chronologically, then one pass maintaining the running total, the
running peak (initially `0`), and the largest `peak - runningTotal` seen. -/
def calculateMaxDrawdown (trades : List Trade) : ℚ :=
  if trades.length = 0 then 0
  else ((sortTradesByDateAsc trades).foldl mddStep (0, 0, 0)).2.2

/-- `getMonthName` from `historicalUtils.ts`: `monthNames[month - 1] ||
'Unknown'` (an out-of-range index reads `undefined`, which coalesces to
`'Unknown'`). -/
def getMonthName (month : Int) : String :=
  if month < 1 then "Unknown"
  else (["January", "February", "March", "April", "May", "June",
         "July", "August", "September", "October", "November",
         "December"]).getD (month - 1).toNat "Unknown"

/-- `getMonthKey(year, month)` builds the string `` `${year}-${month
padded to 2 digits}` ``; it is used only as a `Map` key, and on the values
the application produces (`month` from `getMonth() + 1`, hence 1–12) it is
injective in the pair, so the key is modelled as the pair itself. -/
def getMonthKey (year month : Int) : Int × Int := (year, month)

/-- The bucket that `groupTradesByMonth` stores under `key`, as read back
by `grouped.get(key) || []`: the `Map` is filled by a single in-order
traversal pushing each trade onto its key's array, so the bucket for `key`
is exactly the sublist of trades whose month key equals `key`, and a key
never pushed to reads back as the empty list. -/
def monthGroup (trades : List Trade) (key : Int × Int) : List Trade :=
  trades.filter (fun t => decide (getMonthKey t.date.year t.date.month = key))

/-- One row of the yearly report's `monthlyBreakdown`. -/
structure MonthlyBreakdownEntry where
  month : Int
  monthName : String
  trades : ℕ
  pnl : ℚ
  winRate : ℚ
deriving DecidableEq

/-- The `timeframe` selector of `generateHistoricalAnalytics`. -/
inductive Timeframe
  | daily
  | weekly
  | monthly
  | yearly
deriving DecidableEq

/-- An inclusive date range. -/
structure DateRange where
  startDate : Date
  endDate : Date
deriving DecidableEq

/-- The report built by `generateHistoricalAnalytics`, restricted to the
fields the verified properties read (the display-only `topSymbols` ranking
and the consistency counters are computed alongside in the source but are
not referenced by any claim, and the `Trade` model here omits the `symbol`
field they would need). -/
structure HistoricalAnalytics where
  timeframe : Timeframe
  startDate : Date
  endDate : Date
  stats : TradeStats
  maxDrawdown : ℚ
  monthlyBreakdown : Option (List MonthlyBreakdownEntry)
deriving DecidableEq

/-- The body of the `for (let month = 1; month <= 12; month++)` loop of
`generateHistoricalAnalytics`: the breakdown row for calendar month
`month` of year `year`, aggregating that month's bucket (possibly empty)
of the filtered trade set. -/
def monthlyBreakdownEntryFor (filteredTrades : List Trade) (year month : Int) :
    MonthlyBreakdownEntry :=
  let key := getMonthKey year month
  let monthTrades := monthGroup filteredTrades key
  let monthStats := calculateTradeStats monthTrades
  { month := month
    monthName := getMonthName month
    trades := monthStats.totalTrades
    pnl := monthStats.totalPnL
    winRate := monthStats.winRate }

/-- `generateHistoricalAnalytics` from `historicalUtils.ts`: filter the
trades to the range, aggregate them, and — only for the `yearly`
timeframe — synthesize one breakdown row per month `1..12` of the year of
`dateRange.startDate`. -/
def generateHistoricalAnalytics (trades : List Trade) (timeframe : Timeframe)
    (dateRange : DateRange) : HistoricalAnalytics :=
  let filteredTrades := filterTradesByDateRange trades dateRange.startDate dateRange.endDate
  let basicStats := calculateTradeStats filteredTrades
  let maxDrawdown := calculateMaxDrawdown filteredTrades
  let monthlyBreakdown : Option (List MonthlyBreakdownEntry) :=
    if timeframe = Timeframe.yearly then
      some ((List.range 12).map (fun i =>
        monthlyBreakdownEntryFor filteredTrades dateRange.startDate.year ((i : Int) + 1)))
    else none
  { timeframe := timeframe
    startDate := dateRange.startDate
    endDate := dateRange.endDate
    stats := basicStats
    maxDrawdown := maxDrawdown
    monthlyBreakdown := monthlyBreakdown }

/-- The daily statistics set by `calculateDailyStats` in
`SimpleTradingJournal.tsx`. -/
structure DailyStats where
  currentDayPnL : ℚ
  currentDayTrades : ℕ
  streak : ℕ
deriving DecidableEq

/-- The streak for-loop of `calculateDailyStats`: walk the list from the
head, incrementing while `netPL > 0`, and `break` at the first trade with
non-positive `netPL`. -/
def streakLoop : List Trade → ℕ
  | [] => 0
  | t :: ts => if 0 < t.netPL then streakLoop ts + 1 else 0

/-- Descending stable sort by date:
`[...allTrades].sort((a, b) => new Date(b.date).getTime() - new Date(a.date).getTime())`. -/
def sortTradesByDateDesc (trades : List Trade) : List Trade :=
  trades.insertionSort (fun a b => Date.le b.date a.date)

/-- `calculateDailyStats` from `SimpleTradingJournal.tsx`, with the clock
(`today`) passed in: today's P&L and trade count, and the win streak over
all trades sorted most-recent-first. -/
def calculateDailyStats (allTrades : List Trade) (today : Date) : DailyStats :=
  let todayTrades := allTrades.filter (fun t => decide (t.date = today))
  let currentDayPnL := (todayTrades.map (fun t => t.netPL)).sum
  let currentDayTrades := todayTrades.length
  let sortedTrades := sortTradesByDateDesc allTrades
  { currentDayPnL := currentDayPnL
    currentDayTrades := currentDayTrades
    streak := streakLoop sortedTrades }

/-- Trade status in the `tradingUtils.ts` trade model. -/
inductive TradeStatus
  | OPEN
  | CLOSED
deriving DecidableEq

/-- The trade model used by `src/utils/tradingUtils.ts` (a second model,
distinct from the journal's `Trade`), restricted to the fields
`calculatePortfolioMetrics` reads.  `netPnl` is optional in the TypeScript
type; the source coalesces it with `trade.netPnl || 0`, which sends both
`undefined` and `0` to `0`, i.e. `Option.getD 0` here. -/
structure UtilTrade where
  status : TradeStatus
  netPnl : Option ℚ
  fees : ℚ
  entryPrice : ℚ
  quantity : ℚ
deriving DecidableEq

/-- The record returned by `calculatePortfolioMetrics`. -/
structure PortfolioMetrics where
  totalTrades : ℕ
  openTrades : ℕ
  closedTrades : ℕ
  winningTrades : ℕ
  losingTrades : ℕ
  winRate : ℚ
  totalPnl : ℚ
  totalFees : ℚ
  totalInvestment : ℚ
  averagePnl : ℚ
  bestTrade : ℚ
  worstTrade : ℚ
  returnOnInvestment : ℚ
deriving DecidableEq

/-- `calculatePortfolioMetrics` from `src/utils/tradingUtils.ts`.  Note
`bestTrade = Math.max(...netPnls, 0)` and `worstTrade = Math.min(...netPnls, 0)`:
the literal `0` is part of the argument list, so both are clamped at `0`. -/
def calculatePortfolioMetrics (trades : List UtilTrade) : PortfolioMetrics :=
  let closedTrades := trades.filter (fun t => decide (t.status = TradeStatus.CLOSED))
  let openTrades := trades.filter (fun t => decide (t.status = TradeStatus.OPEN))
  let totalPnl := (trades.map (fun t => t.netPnl.getD 0)).sum
  let totalFees := (trades.map (fun t => t.fees)).sum
  let totalInvestment := (trades.map (fun t => t.entryPrice * t.quantity)).sum
  let winningTrades := closedTrades.filter (fun t => decide (0 < t.netPnl.getD 0))
  let losingTrades := closedTrades.filter (fun t => decide (t.netPnl.getD 0 < 0))
  let winRate : ℚ :=
    if 0 < closedTrades.length then
      ((winningTrades.length : ℚ) / (closedTrades.length : ℚ)) * 100
    else 0
  let averagePnl := if 0 < trades.length then totalPnl / (trades.length : ℚ) else 0
  let bestTrade := (trades.map (fun t => t.netPnl.getD 0)).foldl max 0
  let worstTrade := (trades.map (fun t => t.netPnl.getD 0)).foldl min 0
  { totalTrades := trades.length
    openTrades := openTrades.length
    closedTrades := closedTrades.length
    winningTrades := winningTrades.length
    losingTrades := losingTrades.length
    winRate := winRate
    totalPnl := totalPnl
    totalFees := totalFees
    totalInvestment := totalInvestment
    averagePnl := averagePnl
    bestTrade := bestTrade
    worstTrade := worstTrade
    returnOnInvestment := if 0 < totalInvestment then totalPnl / totalInvestment * 100 else 0 }

/-! ## Helper lemmas -/

/-- `round` of an integer-valued rational is that integer. -/
theorem round_ratCast_eq (q : ℚ) (z : ℤ) (h : (z : ℚ) = q) : round q = z := by
  rw [← h, round_intCast]

/-- One `mddStep` never decreases the tracked maximum drawdown. -/
theorem mddStep_maxDrawdown_le (st : ℚ × ℚ × ℚ) (t : Trade) :
    st.2.2 ≤ (mddStep st t).2.2 := by
  unfold mddStep
  dsimp only
  split <;> split <;> first | exact le_refl _ | linarith

/-- The drawdown fold never decreases the tracked maximum drawdown. -/
theorem foldl_mddStep_mono (l : List Trade) (st : ℚ × ℚ × ℚ) :
    st.2.2 ≤ (l.foldl mddStep st).2.2 := by
  induction l generalizing st with
  | nil => exact le_refl _
  | cons t ts ih =>
    exact le_trans (mddStep_maxDrawdown_le st t) (ih (mddStep st t))

/-- Shape of the win-rate expression `totalTrades > 0 ? winningTrades /
totalTrades * 100 : 0` for any `w ≤ n`: its value, its bounds, and when it
vanishes. -/
theorem winRate_formula (w n : ℕ) (hw : w ≤ n) :
    (if 0 < n then ((w : ℚ) / (n : ℚ)) * 100 else 0) =
        (if n = 0 then 0 else (w : ℚ) / (n : ℚ) * 100) ∧
    0 ≤ (if 0 < n then ((w : ℚ) / (n : ℚ)) * 100 else 0) ∧
    (if 0 < n then ((w : ℚ) / (n : ℚ)) * 100 else 0) ≤ 100 ∧
    ((if 0 < n then ((w : ℚ) / (n : ℚ)) * 100 else 0) = 0 ↔ w = 0) := by
  by_cases hn : n = 0
  · subst hn
    simp at hw
    simp [hw]
  · have hn' : 0 < n := Nat.pos_of_ne_zero hn
    have hnq : (0 : ℚ) < (n : ℚ) := by exact_mod_cast hn'
    have hwq : (w : ℚ) ≤ (n : ℚ) := by exact_mod_cast hw
    rw [if_pos hn', if_neg hn]
    refine ⟨rfl, by positivity, ?_, ?_⟩
    · have h1 : (w : ℚ) / (n : ℚ) ≤ 1 := (div_le_one hnq).mpr hwq
      linarith
    · rw [mul_eq_zero, div_eq_zero_iff]
      constructor
      · rintro ((h | h) | h)
        · exact_mod_cast h
        · exact absurd h hnq.ne'
        · norm_num at h
      · intro h
        subst h
        norm_num

/-- The seed of a `max` fold is a lower bound of the result. -/
theorem le_foldl_max (l : List ℚ) (a : ℚ) : a ≤ l.foldl max a := by
  induction l generalizing a with
  | nil => exact le_refl _
  | cons x xs ih => exact le_trans (le_max_left a x) (ih (max a x))

/-- A `max` fold returns its seed or a list element. -/
theorem foldl_max_mem (l : List ℚ) (a : ℚ) : l.foldl max a = a ∨ l.foldl max a ∈ l := by
  induction l generalizing a with
  | nil => exact Or.inl rfl
  | cons x xs ih =>
    rcases ih (max a x) with h | h
    · rcases max_cases a x with ⟨hm, _⟩ | ⟨hm, _⟩
      · exact Or.inl (by rw [List.foldl_cons, h, hm])
      · exact Or.inr (by rw [List.foldl_cons, h, hm]; exact List.mem_cons_self x xs)
    · exact Or.inr (List.mem_cons_of_mem x h)

/-- A `max` fold bounds every list element from above. -/
theorem mem_le_foldl_max (l : List ℚ) (a : ℚ) : ∀ x ∈ l, x ≤ l.foldl max a := by
  induction l generalizing a with
  | nil => intro x hx; cases hx
  | cons y ys ih =>
    intro x hx
    rcases List.mem_cons.mp hx with rfl | hx
    · exact le_trans (le_max_right a x) (le_foldl_max ys (max a x))
    · exact ih (max a y) x hx

/-- The seed of a `min` fold is an upper bound of the result. -/
theorem foldl_min_le (l : List ℚ) (a : ℚ) : l.foldl min a ≤ a := by
  induction l generalizing a with
  | nil => exact le_refl _
  | cons x xs ih => exact le_trans (ih (min a x)) (min_le_left a x)

/-- A `min` fold returns its seed or a list element. -/
theorem foldl_min_mem (l : List ℚ) (a : ℚ) : l.foldl min a = a ∨ l.foldl min a ∈ l := by
  induction l generalizing a with
  | nil => exact Or.inl rfl
  | cons x xs ih =>
    rcases ih (min a x) with h | h
    · rcases min_cases a x with ⟨hm, _⟩ | ⟨hm, _⟩
      · exact Or.inl (by rw [List.foldl_cons, h, hm])
      · exact Or.inr (by rw [List.foldl_cons, h, hm]; exact List.mem_cons_self x xs)
    · exact Or.inr (List.mem_cons_of_mem x h)

/-- A `min` fold bounds every list element from below. -/
theorem foldl_min_le_mem (l : List ℚ) (a : ℚ) : ∀ x ∈ l, l.foldl min a ≤ x := by
  induction l generalizing a with
  | nil => intro x hx; cases hx
  | cons y ys ih =>
    intro x hx
    rcases List.mem_cons.mp hx with rfl | hx
    · exact le_trans (foldl_min_le ys (min a x)) (min_le_right a x)
    · exact ih (min a y) x hx

/-- `Math.max` over a nonempty list returns one of its elements. -/
theorem listMax_mem (l : List ℚ) (h : l ≠ []) : listMax l ∈ l := by
  cases l with
  | nil => exact absurd rfl h
  | cons x xs =>
    rcases foldl_max_mem xs x with h' | h'
    · rw [listMax, h']; exact List.mem_cons_self _ _
    · rw [listMax]; exact List.mem_cons_of_mem _ h'

/-- `Math.max` over a list bounds every element from above. -/
theorem le_listMax (l : List ℚ) (x : ℚ) (hx : x ∈ l) : x ≤ listMax l := by
  cases l with
  | nil => cases hx
  | cons y ys =>
    rcases List.mem_cons.mp hx with rfl | hx
    · exact le_foldl_max ys x
    · exact mem_le_foldl_max ys y x hx

/-- `Math.min` over a nonempty list returns one of its elements. -/
theorem listMin_mem (l : List ℚ) (h : l ≠ []) : listMin l ∈ l := by
  cases l with
  | nil => exact absurd rfl h
  | cons x xs =>
    rcases foldl_min_mem xs x with h' | h'
    · rw [listMin, h']; exact List.mem_cons_self _ _
    · rw [listMin]; exact List.mem_cons_of_mem _ h'

/-- `Math.min` over a list bounds every element from below. -/
theorem listMin_le (l : List ℚ) (x : ℚ) (hx : x ∈ l) : listMin l ≤ x := by
  cases l with
  | nil => cases hx
  | cons y ys =>
    rcases List.mem_cons.mp hx with rfl | hx
    · exact foldl_min_le ys x
    · exact foldl_min_le_mem ys y x hx

/-- The streak loop counts the longest strictly-positive prefix. -/
theorem streakLoop_eq_takeWhile (l : List Trade) :
    streakLoop l = (l.takeWhile (fun t => decide (0 < t.netPL))).length := by
  induction l with
  | nil => rfl
  | cons t ts ih =>
    by_cases h : 0 < t.netPL
    · simp [streakLoop, List.takeWhile_cons, h, ih]
    · simp [streakLoop, List.takeWhile_cons, h]

/-- A breakdown row built from an empty month bucket has zero-valued stats. -/
theorem monthlyBreakdownEntryFor_of_empty (f : List Trade) (y m : Int)
    (h : monthGroup f (getMonthKey y m) = []) :
    (monthlyBreakdownEntryFor f y m).trades = 0 ∧
    (monthlyBreakdownEntryFor f y m).pnl = 0 ∧
    (monthlyBreakdownEntryFor f y m).winRate = 0 := by
  simp only [monthlyBreakdownEntryFor, h]
  exact ⟨rfl, rfl, rfl⟩

/-- `Date.le` is total. -/
theorem Date.le_total_pair (a b : Date) : Date.le a b ∨ Date.le b a := by
  unfold Date.le; omega

/-- `Date.le` is transitive. -/
theorem Date.le_trans_pair {a b c : Date} (h1 : Date.le a b) (h2 : Date.le b c) :
    Date.le a c := by
  unfold Date.le at *; omega

/-- `Date.le` together with inequality gives `Date.lt`. -/
theorem Date.lt_of_le_of_ne_pair {a b : Date} (h1 : Date.le a b) (h2 : a ≠ b) :
    Date.lt a b := by
  rcases a with ⟨y1, m1, d1⟩
  rcases b with ⟨y2, m2, d2⟩
  simp only [Date.le, Date.lt] at *
  have hne : ¬(y1 = y2 ∧ m1 = m2 ∧ d1 = d2) := by
    rintro ⟨rfl, rfl, rfl⟩
    exact h2 rfl
  omega

/-- `Date.lt` is asymmetric. -/
theorem Date.lt_asymm_pair {a b : Date} (h1 : Date.lt a b) (h2 : Date.lt b a) : False := by
  unfold Date.lt at *; omega

/-- Two permuted trade lists with pairwise distinct dates sort to the same
chronological list. -/
theorem sortTradesByDateAsc_perm_eq (l₁ l₂ : List Trade)
    (hperm : l₁.Perm l₂) (hnodup : (l₁.map (fun t => t.date)).Nodup) :
    sortTradesByDateAsc l₁ = sortTradesByDateAsc l₂ := by
  haveI htotal : IsTotal Trade (fun a b => Date.le a.date b.date) :=
    ⟨fun a b => Date.le_total_pair a.date b.date⟩
  haveI htrans : IsTrans Trade (fun a b => Date.le a.date b.date) :=
    ⟨fun _ _ _ h1 h2 => Date.le_trans_pair h1 h2⟩
  haveI hanti : IsAntisymm Trade (fun a b => Date.lt a.date b.date) :=
    ⟨fun a b h1 h2 => absurd h1 (fun h1 => Date.lt_asymm_pair h1 h2)⟩
  have p₁ : (sortTradesByDateAsc l₁).Perm l₁ := List.perm_insertionSort _ _
  have p₂ : (sortTradesByDateAsc l₂).Perm l₂ := List.perm_insertionSort _ _
  have hperm' : (sortTradesByDateAsc l₁).Perm (sortTradesByDateAsc l₂) :=
    p₁.trans (hperm.trans p₂.symm)
  have hnd₁ : ((sortTradesByDateAsc l₁).map (fun t => t.date)).Nodup :=
    ((p₁.map (fun t => t.date)).nodup_iff).mpr hnodup
  have hnd₂ : ((sortTradesByDateAsc l₂).map (fun t => t.date)).Nodup :=
    ((hperm'.map (fun t => t.date)).nodup_iff).mp hnd₁
  have hne₁ : (sortTradesByDateAsc l₁).Pairwise (fun a b => a.date ≠ b.date) :=
    (List.pairwise_map).mp hnd₁
  have hne₂ : (sortTradesByDateAsc l₂).Pairwise (fun a b => a.date ≠ b.date) :=
    (List.pairwise_map).mp hnd₂
  have hs₁ : (sortTradesByDateAsc l₁).Pairwise (fun a b => Date.le a.date b.date) :=
    List.sorted_insertionSort _ l₁
  have hs₂ : (sortTradesByDateAsc l₂).Pairwise (fun a b => Date.le a.date b.date) :=
    List.sorted_insertionSort _ l₂
  have hlt₁ : List.Sorted (fun a b : Trade => Date.lt a.date b.date) (sortTradesByDateAsc l₁) :=
    (hs₁.and hne₁).imp (fun h => Date.lt_of_le_of_ne_pair h.1 h.2)
  have hlt₂ : List.Sorted (fun a b : Trade => Date.lt a.date b.date) (sortTradesByDateAsc l₂) :=
    (hs₂.and hne₂).imp (fun h => Date.lt_of_le_of_ne_pair h.1 h.2)
  exact List.eq_of_perm_of_sorted hperm' hlt₁ hlt₂

/-! ## Claim theorems -/

/-- Claim C1: after `updateMonthlyTargetProgress` recomputes a month's
progress from the month's trades, the stored `isCompleted` flag is `true`
if and only if the stored `currentPnL`, `currentTrades` and
`currentWinRate` simultaneously meet `pnlTarget`, `tradesTarget` and
`winRateTarget`; in particular satisfying only two of the three conditions
leaves `isCompleted = false`. -/
theorem updateMonthlyTargetProgress_isCompleted_iff
    (target : MonthlyTarget) (year month : Int) (trades : List Trade) (now : Int) :
    (updateMonthlyTargetProgress target year month trades now).isCompleted = true ↔
      ((updateMonthlyTargetProgress target year month trades now).pnlTarget ≤
          (updateMonthlyTargetProgress target year month trades now).currentPnL ∧
        (updateMonthlyTargetProgress target year month trades now).tradesTarget ≤
          (updateMonthlyTargetProgress target year month trades now).currentTrades ∧
        (updateMonthlyTargetProgress target year month trades now).winRateTarget ≤
          (updateMonthlyTargetProgress target year month trades now).currentWinRate) := by
  simp [updateMonthlyTargetProgress, and_assoc]

/-- Claim C2, counterexample: a stored target that carries
`completedAt = some 5` while `isCompleted = false` (goal fields all zero,
so the empty trade set satisfies them) has its timestamp overwritten to
the current clock value `7` by a recomputation — so recomputation can
change an existing `completedAt`, refuting the claim as stated. -/
theorem updateMonthlyTargetProgress_completedAt_overwritten :
    (⟨0, 0, 0, 0, 0, 0, false, some 5, 0⟩ : MonthlyTarget).completedAt = some 5 ∧
    (updateMonthlyTargetProgress ⟨0, 0, 0, 0, 0, 0, false, some 5, 0⟩
        2024 1 [] 7).completedAt = some 7 := by
  constructor
  · rfl
  · norm_num [updateMonthlyTargetProgress, calculateTradeStats, filterTradesByDateRange]

/-- Claim C2, amended: a recomputation leaves `completedAt` unchanged (in
particular never clears it) unless the stored flag was `false` and the
recomputed conditions all hold, i.e. `completedAt` is written exactly on
a `false → true` transition of `isCompleted` — on every such transition,
not only the first. -/
theorem updateMonthlyTargetProgress_completedAt_frame
    (target : MonthlyTarget) (year month : Int) (trades : List Trade) (now : Int)
    (h : target.isCompleted = true ∨
        (updateMonthlyTargetProgress target year month trades now).isCompleted = false) :
    (updateMonthlyTargetProgress target year month trades now).completedAt =
      target.completedAt := by
  rcases h with h | h
  · simp [updateMonthlyTargetProgress, h]
  · simp only [updateMonthlyTargetProgress] at h ⊢
    simp only [h]
    simp

/-- Witness for the amended C2 theorem at a concrete already-completed
target: its timestamp survives recomputation. -/
theorem updateMonthlyTargetProgress_completedAt_frame_witness :
    (updateMonthlyTargetProgress ⟨0, 0, 0, 0, 0, 0, true, some 5, 0⟩
        2024 1 [] 7).completedAt = some 5 :=
  updateMonthlyTargetProgress_completedAt_frame
    ⟨0, 0, 0, 0, 0, 0, true, some 5, 0⟩ 2024 1 [] 7 (Or.inl rfl)

/-- Claim C3, counterexample: a negative account balance is truthy, so the
guard does not stop the computation — the calculator produces a result,
and its position size (`lotSize = -4`) is negative, refuting the claim
that any negative required input is rejected with no partial result. -/
theorem calculatePositionSize_negative_input_result :
    calculatePositionSize (some (-1000)) (some 2) (some 50) (some (1/10)) none =
      some ⟨-4, -20, none, 1/10⟩ ∧ (-4 : ℚ) < 0 := by
  constructor
  · norm_num [calculatePositionSize, jsTruthy, roundTo]
    rw [round_ratCast_eq (-40000) (-40000) (by norm_num),
        round_ratCast_eq (-2000) (-2000) (by norm_num)]
    norm_num
  · norm_num

/-- Claim C3, amended: the calculator stops synchronously with no result
when any required numeric input is missing (`parseFloat` gave `NaN`) or
zero, or the pair lookup failed — these are the falsy cases of the guard;
negative inputs, being truthy, pass the guard instead. -/
theorem calculatePositionSize_falsy_input_none
    (accountBalance riskPercentage stopLossPips selectedPairPipValue takeProfitPips : Option ℚ)
    (h : accountBalance = none ∨ accountBalance = some 0 ∨
        riskPercentage = none ∨ riskPercentage = some 0 ∨
        stopLossPips = none ∨ stopLossPips = some 0 ∨
        selectedPairPipValue = none) :
    calculatePositionSize accountBalance riskPercentage stopLossPips
      selectedPairPipValue takeProfitPips = none := by
  cases hp : selectedPairPipValue with
  | none => simp [calculatePositionSize]
  | some pv =>
    rcases h with h | h | h | h | h | h | h <;>
      simp [calculatePositionSize, jsTruthy, h] at hp ⊢

/-- Witness for the amended C3 theorem: a missing account balance yields
no result. -/
theorem calculatePositionSize_falsy_input_none_witness :
    calculatePositionSize none (some 2) (some 50) (some (1/10)) none = none :=
  calculatePositionSize_falsy_input_none none (some 2) (some 50) (some (1/10)) none
    (Or.inl rfl)

/-- Claim C4: for valid inputs (`balance > 0`, `riskPercent ∈ (0, 100]`,
`stopLoss > 0`, `pipValue > 0`, and a take-profit distance that is absent
or nonzero — a supplied `0` is falsy and treated as absent by the source),
the calculator returns `riskAmount = balance * riskPercent / 100` rounded
to 2 decimals, `positionSize = riskAmount / (stopLoss * pipValue)` rounded
to 4 decimals, and `potentialProfit = takeProfit * pipValue * positionSize`
computed from the unrounded position size and rounded to 2 decimals;
rounding is applied once, at output. -/
theorem calculatePositionSize_valid_formula
    (balance riskPercent stopLoss pipValue : ℚ) (takeProfit : Option ℚ)
    (hb : 0 < balance) (hr : 0 < riskPercent) (hr100 : riskPercent ≤ 100)
    (hsl : 0 < stopLoss) (hpv : 0 < pipValue)
    (htp : ∀ t ∈ takeProfit, t ≠ 0) :
    calculatePositionSize (some balance) (some riskPercent) (some stopLoss)
        (some pipValue) takeProfit =
      some { lotSize := roundTo 4 (balance * riskPercent / 100 / (stopLoss * pipValue))
             riskAmount := roundTo 2 (balance * riskPercent / 100)
             potentialProfit := takeProfit.map
               (fun t => roundTo 2 (t * pipValue *
                 (balance * riskPercent / 100 / (stopLoss * pipValue))))
             pipValue := pipValue } := by
  cases takeProfit with
  | none =>
    simp [calculatePositionSize, jsTruthy, hb.ne', hr.ne', hsl.ne']
  | some t =>
    have ht : t ≠ 0 := htp t rfl
    have hlot : 0 < balance * riskPercent / 100 / (stopLoss * pipValue) := by positivity
    have hp : t * pipValue * (balance * riskPercent / 100 / (stopLoss * pipValue)) ≠ 0 :=
      mul_ne_zero (mul_ne_zero ht hpv.ne') hlot.ne'
    simp [calculatePositionSize, jsTruthy, hb.ne', hr.ne', hsl.ne', ht, hp]

/-- Witness for C4 at the spec's scenario: `accountBalance = 10000`,
`riskPercent = 2`, `stopLossDistance = 50`, `pipValue = 0.1` give
`riskAmount = 200` and `positionSize = 40`. -/
theorem calculatePositionSize_valid_formula_witness :
    calculatePositionSize (some 10000) (some 2) (some 50) (some (1/10)) none =
      some ⟨40, 200, none, 1/10⟩ := by
  have h := calculatePositionSize_valid_formula 10000 2 50 (1/10) none
    (by norm_num) (by norm_num) (by norm_num) (by norm_num) (by norm_num) (by simp)
  rw [h]
  norm_num [roundTo]

/-- Claim C5, counterexample: on the single-element sequence whose trade
has `netPL = -10`, `calculateMaxDrawdown` returns `10`, not `0` — the
running peak starts at `0`, so a single losing trade already registers a
drawdown, refuting the claim that every single-element sorted sequence
yields `0`. -/
theorem calculateMaxDrawdown_singleton_loss :
    calculateMaxDrawdown [⟨⟨2024, 1, 1⟩, -10, 0⟩] = 10 ∧ (10 : ℚ) ≠ 0 := by
  constructor
  · norm_num [calculateMaxDrawdown, sortTradesByDateAsc, List.insertionSort, mddStep]
  · norm_num

/-- Claim C5, amended: the maximum-drawdown computation is always
non-negative and returns `0` on the empty sequence; on a single-element
sequence it returns `max 0 (-netPL)` — that is `0` exactly when the
trade's `netPL` is non-negative, because the running peak starts at `0`. -/
theorem calculateMaxDrawdown_nonneg_empty_singleton (trades : List Trade) (t : Trade) :
    0 ≤ calculateMaxDrawdown trades ∧
    calculateMaxDrawdown ([] : List Trade) = 0 ∧
    calculateMaxDrawdown [t] = max 0 (-t.netPL) := by
  refine ⟨?_, rfl, ?_⟩
  · unfold calculateMaxDrawdown
    split
    · exact le_refl _
    · exact foldl_mddStep_mono _ (0, 0, 0)
  · unfold calculateMaxDrawdown
    rw [if_neg (by simp), show sortTradesByDateAsc [t] = [t] from rfl]
    simp only [List.foldl_cons, List.foldl_nil, mddStep, zero_add]
    rw [max_def]
    split_ifs <;> linarith

/-- Claim C6, counterexample: the one-trade set whose trade has
`netPL = -5` is nonempty (`totalTrades = 1`) yet has `winRate = 0`,
refuting the claim that `winRate = 0` holds exactly when the set is
empty. -/
theorem calculateTradeStats_winRate_zero_nonempty :
    (calculateTradeStats [⟨⟨2024, 1, 1⟩, -5, 0⟩]).winRate = 0 ∧
    (calculateTradeStats [⟨⟨2024, 1, 1⟩, -5, 0⟩]).totalTrades = 1 := by
  norm_num [calculateTradeStats]

/-- Claim C6, amended: `winRate` equals
`winningTrades / totalTrades * 100` (with `0` for the empty set), lies in
`[0, 100]`, and vanishes exactly when there are no winning trades — which
covers the empty set but also any nonempty set without a strictly
profitable trade; `getPortfolioSummary` computes the same value. -/
theorem calculateTradeStats_winRate_bounds_iff (trades : List Trade) :
    (calculateTradeStats trades).winRate =
      (if (calculateTradeStats trades).totalTrades = 0 then 0
       else ((calculateTradeStats trades).winningTrades : ℚ) /
           ((calculateTradeStats trades).totalTrades : ℚ) * 100) ∧
    0 ≤ (calculateTradeStats trades).winRate ∧
    (calculateTradeStats trades).winRate ≤ 100 ∧
    ((calculateTradeStats trades).winRate = 0 ↔
      (calculateTradeStats trades).winningTrades = 0) ∧
    (getPortfolioSummary trades).winRate = (calculateTradeStats trades).winRate := by
  have h := winRate_formula (trades.filter (fun t => decide (0 < t.netPL))).length
    trades.length (List.length_filter_le _ _)
  simp only [calculateTradeStats, getPortfolioSummary]
  exact ⟨h.1, h.2.1, h.2.2.1, h.2.2.2, trivial⟩

/-- Claim C7, counterexample: for a set whose only trade has negative
net P&L, `calculatePortfolioMetrics` reports `bestTrade = 0` — not the
(negative) maximum net P&L — because the source clamps with
`Math.max(...netPnls, 0)`; this refutes the claim for that aggregator. -/
theorem calculatePortfolioMetrics_bestTrade_clamped :
    (calculatePortfolioMetrics [⟨TradeStatus.CLOSED, some (-5), 0, 1, 1⟩]).bestTrade = 0 ∧
    (⟨TradeStatus.CLOSED, some (-5), 0, 1, 1⟩ : UtilTrade).netPnl.getD 0 < 0 ∧
    ¬ (calculatePortfolioMetrics [⟨TradeStatus.CLOSED, some (-5), 0, 1, 1⟩]).bestTrade < 0 := by
  norm_num [calculatePortfolioMetrics]

/-- Claim C7, amended: `calculateTradeStats` (and the identical
`getPortfolioSummary`) return `bestTrade`/`worstTrade` equal to the
maximum/minimum `netPL` of a nonempty set (so they can be negative resp.
positive), and `0` for the empty set; `calculatePortfolioMetrics`,
however, clamps: its `bestTrade` is never negative and its `worstTrade`
never positive. -/
theorem calculateTradeStats_best_worst_spec (trades : List Trade) (l : List UtilTrade)
    (h : trades ≠ []) :
    ((calculateTradeStats trades).bestTrade ∈ trades.map (fun t => t.netPL) ∧
      ∀ t ∈ trades, t.netPL ≤ (calculateTradeStats trades).bestTrade) ∧
    ((calculateTradeStats trades).worstTrade ∈ trades.map (fun t => t.netPL) ∧
      ∀ t ∈ trades, (calculateTradeStats trades).worstTrade ≤ t.netPL) ∧
    (calculateTradeStats ([] : List Trade)).bestTrade = 0 ∧
    (calculateTradeStats ([] : List Trade)).worstTrade = 0 ∧
    (getPortfolioSummary trades).bestTrade = (calculateTradeStats trades).bestTrade ∧
    (getPortfolioSummary trades).worstTrade = (calculateTradeStats trades).worstTrade ∧
    0 ≤ (calculatePortfolioMetrics l).bestTrade ∧
    (calculatePortfolioMetrics l).worstTrade ≤ 0 := by
  have hlen : trades.length ≠ 0 := by
    simpa [List.length_eq_zero] using h
  have hmapne : trades.map (fun t => t.netPL) ≠ [] := by
    simpa [List.map_eq_nil_iff] using h
  have hbest : (calculateTradeStats trades).bestTrade =
      listMax (trades.map (fun t => t.netPL)) := by
    simp [calculateTradeStats, hlen]
  have hworst : (calculateTradeStats trades).worstTrade =
      listMin (trades.map (fun t => t.netPL)) := by
    simp [calculateTradeStats, hlen]
  refine ⟨⟨?_, ?_⟩, ⟨?_, ?_⟩, rfl, rfl, rfl, rfl, ?_, ?_⟩
  · rw [hbest]; exact listMax_mem _ hmapne
  · intro t ht
    rw [hbest]
    exact le_listMax _ _ (List.mem_map_of_mem _ ht)
  · rw [hworst]; exact listMin_mem _ hmapne
  · intro t ht
    rw [hworst]
    exact listMin_le _ _ (List.mem_map_of_mem _ ht)
  · exact le_foldl_max _ 0
  · exact foldl_min_le _ 0

/-- Witness for the amended C7 theorem at a concrete nonempty set. -/
theorem calculateTradeStats_best_worst_spec_witness :
    (calculateTradeStats [⟨⟨2024, 1, 1⟩, 3, 0⟩, ⟨⟨2024, 1, 2⟩, -2, 0⟩]).bestTrade ∈
      ([⟨⟨2024, 1, 1⟩, 3, 0⟩, ⟨⟨2024, 1, 2⟩, -2, 0⟩] : List Trade).map (fun t => t.netPL) :=
  (calculateTradeStats_best_worst_spec
    [⟨⟨2024, 1, 1⟩, 3, 0⟩, ⟨⟨2024, 1, 2⟩, -2, 0⟩] [] (by simp)).1.1

/-- Claim C8: for a trade list already sorted descending by date (most
recent first), the win streak computed by `calculateDailyStats` equals
the length of the maximal prefix of consecutive trades with `netPL > 0`,
stopping at the first trade with `netPL ≤ 0` (a break-even trade ends the
streak). -/
theorem calculateDailyStats_streak_spec (allTrades : List Trade) (today : Date)
    (h : List.Sorted (fun a b => Date.le b.date a.date) allTrades) :
    (calculateDailyStats allTrades today).streak =
      (allTrades.takeWhile (fun t => decide (0 < t.netPL))).length := by
  have hs : sortTradesByDateDesc allTrades = allTrades :=
    List.Sorted.insertionSort_eq h
  simp only [calculateDailyStats, sortTradesByDateDesc] at hs ⊢
  rw [hs, streakLoop_eq_takeWhile]

/-- Witness for C8 at the spec's scenario: the most-recent-first net P&L
sequence `[+10, +5, -3, +20]` yields a streak of `2`. -/
theorem calculateDailyStats_streak_spec_witness :
    (calculateDailyStats
        [⟨⟨2024, 1, 4⟩, 10, 0⟩, ⟨⟨2024, 1, 3⟩, 5, 0⟩, ⟨⟨2024, 1, 2⟩, -3, 0⟩,
          ⟨⟨2024, 1, 1⟩, 20, 0⟩]
        ⟨2024, 1, 4⟩).streak = 2 := by
  have h := calculateDailyStats_streak_spec
    [⟨⟨2024, 1, 4⟩, 10, 0⟩, ⟨⟨2024, 1, 3⟩, 5, 0⟩, ⟨⟨2024, 1, 2⟩, -3, 0⟩,
      ⟨⟨2024, 1, 1⟩, 20, 0⟩]
    ⟨2024, 1, 4⟩ (by
      simp [List.Sorted, List.pairwise_cons, Date.le])
  rw [h]
  norm_num [List.takeWhile_cons]

/-- Claim C9: for the `yearly` timeframe the report carries a monthly
breakdown of exactly 12 rows, whose `month` fields enumerate the calendar
months `1..12` of the year of the range's start date in order, and a
month whose bucket in the filtered trade set is empty still appears, with
zero trades, zero P&L and zero win rate. -/
theorem generateHistoricalAnalytics_yearly_breakdown
    (trades : List Trade) (dateRange : DateRange) :
    ∃ mb : List MonthlyBreakdownEntry,
      (generateHistoricalAnalytics trades Timeframe.yearly dateRange).monthlyBreakdown =
        some mb ∧
      mb.length = 12 ∧
      mb.map (fun e => e.month) = (List.range 12).map (fun i : ℕ => (i : Int) + 1) ∧
      ∀ e ∈ mb,
        monthGroup (filterTradesByDateRange trades dateRange.startDate dateRange.endDate)
            (getMonthKey dateRange.startDate.year e.month) = [] →
          e.trades = 0 ∧ e.pnl = 0 ∧ e.winRate = 0 := by
  refine ⟨(List.range 12).map (fun i : ℕ =>
      monthlyBreakdownEntryFor
        (filterTradesByDateRange trades dateRange.startDate dateRange.endDate)
        dateRange.startDate.year ((i : Int) + 1)), rfl, ?_, ?_, ?_⟩
  · rw [List.length_map, List.length_range]
  · simp only [List.map_map]
    rfl
  · intro e he hgroup
    obtain ⟨i, hi, rfl⟩ := List.mem_map.mp he
    exact monthlyBreakdownEntryFor_of_empty _ _ _ hgroup

/-- Claim C10: `calculateMaxDrawdown` sorts its input chronologically
before the running-peak pass, so two permuted trade lists with pairwise
distinct dates produce the same maximum drawdown — the caller need not
pass trades in chronological order. -/
theorem calculateMaxDrawdown_perm_invariant (l₁ l₂ : List Trade)
    (hperm : l₁.Perm l₂) (hnodup : (l₁.map (fun t => t.date)).Nodup) :
    calculateMaxDrawdown l₁ = calculateMaxDrawdown l₂ := by
  unfold calculateMaxDrawdown
  rw [hperm.length_eq, sortTradesByDateAsc_perm_eq l₁ l₂ hperm hnodup]

/-- Witness for C10 on a concrete two-trade list and its reversal. -/
theorem calculateMaxDrawdown_perm_invariant_witness :
    calculateMaxDrawdown [⟨⟨2024, 1, 2⟩, 5, 0⟩, ⟨⟨2024, 1, 1⟩, -3, 0⟩] =
      calculateMaxDrawdown [⟨⟨2024, 1, 1⟩, -3, 0⟩, ⟨⟨2024, 1, 2⟩, 5, 0⟩] :=
  calculateMaxDrawdown_perm_invariant _ _
    (List.Perm.swap (⟨⟨2024, 1, 1⟩, -3, 0⟩ : Trade) (⟨⟨2024, 1, 2⟩, 5, 0⟩ : Trade) [])
    (by decide)
